import Mathlib

/-!
# Verification of the swarm game core

Shallow embedding of the swarm game's simulation core:

* `src/unnamed/part_000` — time stepper (`eulerStep`, `trapezoidalStep`),
  `ParticleSystem` / `PlayerSystem` (incl. `replenishParticles`),
  `collides`, `resolveCollision`;
* `src/unnamed/part_001` — `Particle`, `ColorParticle`, `AttackParticle`
  (constructor, `evalDeriv`, `doLogic`, `isDead`);
* `src/script.js` — global constants and `logicLoop`'s collision pass.

State vectors `[pos, vel, age, attackDelay]` are modelled as structures over a
field `α` (instantiated at `ℚ` where we evaluate concretely and at `ℝ` where
the geometry needs square roots).  The `THREE.Vector2` methods used by the
source (`addSelf`, `subSelf`, `multiplyScalar`, `divideScalar`, `length`,
`normalize`, `setLength`, `dot`, `distanceTo`) follow the three.js r49
implementations; in particular `divideScalar` sets the vector to `(0, 0)`
when the scalar is zero, so `normalize`/`setLength` of the zero vector give
`(0, 0)`.
-/

namespace Swarm

/-! ## Global constants, from the top of `src/script.js`. -/

def STARTING_LIVES : Int := 10

noncomputable section RealConstants

def RADIUS : ℝ := 2
def ATTACK_DISTANCE : ℝ := 40
def ATTACK_THRUSTERS : ℝ := 8
def THRUSTERS : ℝ := 8
def MAX_SPEED : ℝ := 5
def CONNECT_DIST : ℝ := 100
def ATTACK_DELAY : ℝ := 20
def TIME_STEP : ℝ := 1/10
def COLLISION_EPSILON : ℝ := 1/10

end RealConstants

/-! ## State and derivative vectors

A particle's state, as assembled by `ParticleSystem.getState`
(`src/unnamed/part_000`, lines 182–190): `[pos, vel, age, attackDelay]`.
A derivative, as returned by `AttackParticle.evalDeriv`
(`src/unnamed/part_001`, line 229): `[vel, accel, ageIncr, delayIncr]`.
-/

structure St (α : Type) where
  pos : α × α
  vel : α × α
  age : α
  delay : α
deriving DecidableEq, Repr

structure Dv (α : Type) where
  d0 : α × α
  d1 : α × α
  d2 : α
  d3 : α
deriving DecidableEq, Repr

/-- Componentwise vector addition (`THREE.Vector2.addSelf` / `add`). -/
def vadd {α : Type} [Field α] (a b : α × α) : α × α :=
  (a.1 + b.1, a.2 + b.2)

/-- Componentwise vector subtraction (`THREE.Vector2.subSelf` / `sub`). -/
def vsub {α : Type} [Field α] (a b : α × α) : α × α :=
  (a.1 - b.1, a.2 - b.2)

/-- Scalar multiple of a vector (`THREE.Vector2.multiplyScalar`). -/
def vscale {α : Type} [Field α] (s : α) (a : α × α) : α × α :=
  (s * a.1, s * a.2)

/-! ## Time stepper (`src/unnamed/part_000`, lines 11–88)

The stepper walks the keyed state dictionary and updates each key from its own
derivative only, so we model the state dictionary as a list and the loop body
as a per-key function.  `system.evalDeriv` becomes an explicit function
argument of type `List (St α) → List (Dv α)`.
-/

/-- Loop body of `eulerStep` (`src/unnamed/part_000`, lines 15–30).

Note the source's last line is `particle[3] += thisDeriv[3];` — the fourth
component (attackDelay) is incremented by the raw derivative, with no
`timeStep` factor, unlike components 0–2. -/
def eulerStepOne {α : Type} [Field α] (particle : St α) (thisDeriv : Dv α)
    (timeStep : α) : St α :=
  let scaledDeriv0 := vscale timeStep thisDeriv.d0
  let scaledDeriv1 := vscale timeStep thisDeriv.d1
  let scaledDeriv2 := thisDeriv.d2 * timeStep
  { pos := vadd particle.pos scaledDeriv0
    vel := vadd particle.vel scaledDeriv1
    age := particle.age + thisDeriv.d2 * timeStep
    delay := particle.delay + thisDeriv.d3 }

/-- `eulerStep` (`src/unnamed/part_000`, lines 11–32): evaluate the derivative
once at the current state and update every key by its loop body. -/
def eulerStep {α : Type} [Field α] (evalDeriv : List (St α) → List (Dv α))
    (state : List (St α)) (timeStep : α) : List (St α) :=
  let deriv := evalDeriv state
  List.zipWith (fun particle thisDeriv => eulerStepOne particle thisDeriv timeStep)
    state deriv

/-- First loop body of `trapezoidalStep` (`src/unnamed/part_000`, lines 44–60):
the Euler-projected trial state. -/
def trapTrialOne {α : Type} [Field α] (particle : St α) (thisDeriv : Dv α)
    (timeStep : α) : St α :=
  { pos := vadd particle.pos (vscale timeStep thisDeriv.d0)
    vel := vadd particle.vel (vscale timeStep thisDeriv.d1)
    age := particle.age + thisDeriv.d2 * timeStep
    delay := particle.delay + thisDeriv.d3 }

/-- Second loop body of `trapezoidalStep` (`src/unnamed/part_000`, lines
66–85).  In the source, `thisDerivOne` and `thisDerivTwo` are both bound to
`deriv[key]` (line 68–69) — the same array object — so the two
`multiplyScalar(timeStep * 0.5)` calls each hit the same vectors, leaving
them scaled by `(timeStep * 0.5)^2`, and the freshly computed `nextDeriv` is
never consulted.  `particle` here is the trial state `nextState[key]`
(line 67), not the original state.  Components 2 and 3 both read
`thisDeriv[2]` (lines 81–82). -/
def trapSecondOne {α : Type} [Field α] (particle : St α) (thisDeriv : Dv α)
    (timeStep : α) : St α :=
  let aliased0 := vscale (timeStep * (1/2)) (vscale (timeStep * (1/2)) thisDeriv.d0)
  let aliased1 := vscale (timeStep * (1/2)) (vscale (timeStep * (1/2)) thisDeriv.d1)
  { pos := vadd (vadd particle.pos aliased0) aliased0
    vel := vadd (vadd particle.vel aliased1) aliased1
    age := particle.age + (thisDeriv.d2 + thisDeriv.d2) * timeStep * (1/2)
    delay := particle.delay + (thisDeriv.d2 + thisDeriv.d2) * (1/2) }

/-- `trapezoidalStep` (`src/unnamed/part_000`, lines 38–88).  The derivative
`nextDeriv` at the trial state is computed (line 63) but, because of the
aliasing on lines 68–69, never used. -/
def trapezoidalStep {α : Type} [Field α] (evalDeriv : List (St α) → List (Dv α))
    (state : List (St α)) (timeStep : α) : List (St α) :=
  let deriv := evalDeriv state
  let nextState :=
    List.zipWith (fun particle thisDeriv => trapTrialOne particle thisDeriv timeStep)
      state deriv
  let nextDeriv := evalDeriv nextState
  List.zipWith (fun particle thisDeriv => trapSecondOne particle thisDeriv timeStep)
    nextState deriv

/-- `List.zipWith` of a list against a constant-mapped copy of itself is a map. -/
theorem zipWith_self_constMap {α β γ : Type} (f : α → β → γ) (d : β) (l : List α) :
    List.zipWith f l (l.map fun _ => d) = l.map (fun s => f s d) := by
  induction l with
  | nil => rfl
  | cons a l ih => simp only [List.map_cons, List.zipWith_cons_cons, ih]

/-- `List.zipWith` of two maps over the same list is a map. -/
theorem zipWith_map_map {α β γ δ : Type} (f : β → γ → δ) (g : α → β) (h : α → γ)
    (l : List α) :
    List.zipWith f (l.map g) (l.map h) = l.map (fun x => f (g x) (h x)) := by
  induction l with
  | nil => rfl
  | cons a l ih => simp [ih]

/-- On a constant-derivative system, one Euler step is the per-key body applied
to every key. -/
theorem eulerStep_const_deriv {α : Type} [Field α] (d : Dv α) (state : List (St α))
    (t : α) :
    eulerStep (fun l => l.map (fun _ => d)) state t
      = state.map (fun s => eulerStepOne s d t) := by
  simpa [eulerStep] using zipWith_self_constMap
    (fun particle thisDeriv => eulerStepOne particle thisDeriv t) d state

/-- On a constant-derivative system, one trapezoidal step is the second-loop
body applied to the trial state of every key. -/
theorem trapezoidalStep_const_deriv {α : Type} [Field α] (d : Dv α)
    (state : List (St α)) (t : α) :
    trapezoidalStep (fun l => l.map (fun _ => d)) state t
      = state.map (fun s => trapSecondOne (trapTrialOne s d t) d t) := by
  have h1 : List.zipWith (fun particle thisDeriv => trapTrialOne particle thisDeriv t)
      state (state.map fun _ => d) = state.map (fun s => trapTrialOne s d t) :=
    zipWith_self_constMap _ d state
  simp only [trapezoidalStep, h1]
  simpa using zipWith_map_map
    (fun particle thisDeriv => trapSecondOne particle thisDeriv t)
    (fun s => trapTrialOne s d t) (fun _ => d) state

/-- C4 (counterexample): the claimed update `state[k] += deriv[k] * Δt` for
*every* component is false for the fourth (attackDelay) component: with a
constant derivative whose fourth component is `1` and `Δt = 2`, the Euler step
leaves attackDelay at `0 + 1 = 1`, not `0 + 1 * 2 = 2`. -/
theorem eulerStep_uniform_scaling_false :
    eulerStep (fun l => l.map (fun _ => (⟨(0, 0), (0, 0), 0, 1⟩ : Dv ℚ)))
        [⟨(0, 0), (0, 0), 0, 0⟩] 2
      ≠ [(⟨(0, 0), (0, 0), 0, 2⟩ : St ℚ)] := by
  simp [eulerStep, eulerStepOne, vadd, vscale, St.mk.injEq]

/-- C4 (amended): one forward Euler step of size `Δt` performs a single
derivative evaluation and updates position, velocity and age of every key by
`deriv * Δt`, while the fourth (attackDelay) component is incremented by the
raw `deriv[3]` with no `Δt` factor; so a constant derivative `d` produces
`state + d*Δt` in components 0–2 and `state + d[3]` in component 3. -/
theorem eulerStep_const_deriv_closed_form {α : Type} [Field α] (d : Dv α)
    (state : List (St α)) (t : α) :
    eulerStep (fun l => l.map (fun _ => d)) state t
      = state.map (fun s =>
          { pos := (s.pos.1 + d.d0.1 * t, s.pos.2 + d.d0.2 * t)
            vel := (s.vel.1 + d.d1.1 * t, s.vel.2 + d.d1.2 * t)
            age := s.age + d.d2 * t
            delay := s.delay + d.d3 }) := by
  rw [eulerStep_const_deriv]
  refine List.map_congr_left (fun s _ => ?_)
  simp [eulerStepOne, vadd, vscale, mul_comm]

/-- C5: on a constant-derivative system the trapezoidal step does *not* match
the Euler step.  With state `[(0,0), (0,0), 0, 0]`, constant derivative
`[(1,0), (0,0), 1, 0]` and `Δt = 1`, `trapezoidalStep` produces
`[(3/2, 0), (0, 0), 2, 1]` while `eulerStep` produces `[(1,0), (0,0), 1, 0]`:
the second loop of `trapezoidalStep` starts from the Euler-projected trial
state and adds the *first* derivative again (`thisDerivOne` and
`thisDerivTwo` both alias `deriv[key]`; `nextDeriv` is never used), and its
fourth component reads `thisDeriv[2]`. -/
theorem trapezoidalStep_ne_eulerStep_const_deriv :
    trapezoidalStep (fun l => l.map (fun _ => (⟨(1, 0), (0, 0), 1, 0⟩ : Dv ℚ)))
        [⟨(0, 0), (0, 0), 0, 0⟩] 1
      = [(⟨(3/2, 0), (0, 0), 2, 1⟩ : St ℚ)]
    ∧ eulerStep (fun l => l.map (fun _ => (⟨(1, 0), (0, 0), 1, 0⟩ : Dv ℚ)))
        [⟨(0, 0), (0, 0), 0, 0⟩] 1
      = [(⟨(1, 0), (0, 0), 1, 0⟩ : St ℚ)]
    ∧ trapezoidalStep (fun l => l.map (fun _ => (⟨(1, 0), (0, 0), 1, 0⟩ : Dv ℚ)))
        [⟨(0, 0), (0, 0), 0, 0⟩] 1
      ≠ eulerStep (fun l => l.map (fun _ => (⟨(1, 0), (0, 0), 1, 0⟩ : Dv ℚ)))
        [⟨(0, 0), (0, 0), 0, 0⟩] 1 := by
  refine ⟨?_, ?_, ?_⟩ <;>
    norm_num [trapezoidalStep, trapTrialOne, trapSecondOne, eulerStep,
      eulerStepOne, vadd, vscale, St.mk.injEq]

/-! ## Real-valued vector geometry (`THREE.Vector2`, three.js r49)

The collision and derivative code is modelled over exact reals.  JS doubles
round and carry `NaN`/`Infinity`; the idealized real model is used for the
algebraic claims, and a separate extended-rational model mirroring the IEEE
special values is used for the NaN-propagation claim about
`resolveCollision`.
-/

noncomputable section RealGeometry

/-- `THREE.Vector2.length`: `Math.sqrt(x * x + y * y)`. -/
def len (v : ℝ × ℝ) : ℝ := Real.sqrt (v.1 * v.1 + v.2 * v.2)

/-- `THREE.Vector2.divideScalar` (r49): divides componentwise, but sets the
vector to `(0, 0)` when the scalar is falsy (zero). -/
def divideScalar (v : ℝ × ℝ) (s : ℝ) : ℝ × ℝ :=
  if s = 0 then (0, 0) else (v.1 / s, v.2 / s)

/-- `THREE.Vector2.normalize`: `divideScalar(length())`. -/
def normalize (v : ℝ × ℝ) : ℝ × ℝ := divideScalar v (len v)

/-- `THREE.Vector2.setLength(l)`: `normalize().multiplyScalar(l)`. -/
def setLength (v : ℝ × ℝ) (l : ℝ) : ℝ × ℝ := vscale l (normalize v)

/-- `THREE.Vector2.dot`. -/
def dot (a b : ℝ × ℝ) : ℝ := a.1 * b.1 + a.2 * b.2

/-- `THREE.Vector2.distanceTo`. -/
def distanceTo (a b : ℝ × ℝ) : ℝ := len (vsub a b)

end RealGeometry

theorem dot_self_nonneg (v : ℝ × ℝ) : 0 ≤ dot v v :=
  add_nonneg (mul_self_nonneg _) (mul_self_nonneg _)

theorem len_mul_self (v : ℝ × ℝ) : len v * len v = dot v v :=
  Real.mul_self_sqrt (dot_self_nonneg v)

theorem len_eq_zero_iff (v : ℝ × ℝ) : len v = 0 ↔ v = (0, 0) := by
  obtain ⟨x, y⟩ := v
  unfold len
  constructor
  · intro h
    have h0 : x * x + y * y ≤ 0 := Real.sqrt_eq_zero'.mp h
    have h1 : x = 0 := by nlinarith [mul_self_nonneg x, mul_self_nonneg y]
    have h2 : y = 0 := by nlinarith [mul_self_nonneg x, mul_self_nonneg y]
    simp [h1, h2]
  · intro h
    simp only [Prod.mk.injEq] at h
    simp [h.1, h.2]

theorem len_normalize_of_ne_zero {v : ℝ × ℝ} (hv : v ≠ (0, 0)) :
    len (normalize v) = 1 := by
  have hlen : len v ≠ 0 := fun h => hv ((len_eq_zero_iff v).mp h)
  have hq : 0 ≤ v.1 * v.1 + v.2 * v.2 :=
    add_nonneg (mul_self_nonneg _) (mul_self_nonneg _)
  have hl2 : len v * len v = v.1 * v.1 + v.2 * v.2 := Real.mul_self_sqrt hq
  have key : v.1 / len v * (v.1 / len v) + v.2 / len v * (v.2 / len v) = 1 := by
    field_simp
    linarith [hl2]
  unfold normalize divideScalar
  rw [if_neg hlen]
  have hshow : len (v.1 / len v, v.2 / len v)
      = Real.sqrt (v.1 / len v * (v.1 / len v) + v.2 / len v * (v.2 / len v)) := rfl
  rw [hshow, key, Real.sqrt_one]

/-- A unit normal dotted with itself gives `1`. -/
theorem dot_self_of_len_one {n : ℝ × ℝ} (hn : len n = 1) : dot n n = 1 := by
  have := len_mul_self n
  rw [hn] at this
  linarith [this]

/-- `setLength` on a unit vector is plain scaling. -/
theorem setLength_of_len_one {n : ℝ × ℝ} (hn : len n = 1) (l : ℝ) :
    setLength n l = vscale l n := by
  unfold setLength normalize divideScalar
  rw [hn, if_neg one_ne_zero]
  simp [vscale]

/-- Vectors with equal self-dot have equal length. -/
theorem len_eq_of_dot_self_eq {a b : ℝ × ℝ} (h : dot a a = dot b b) :
    len a = len b := by
  unfold len
  unfold dot at h
  rw [h]

/-! ## Collidable particles and the collision pass

`PartR` carries the fields of an `AttackParticle` that the collision code
reads or writes: `pos`, `vel`, `radius`, `team`, `lives`
(`src/unnamed/part_001`, lines 17–23 and 139–148), the `attackDelay` counter,
the per-tick `distances` scratch list and the `collideIndex` assigned by
`Game.addSprite` (`src/script.js`, lines 66–76).
-/

structure PartR where
  pos : ℝ × ℝ
  vel : ℝ × ℝ
  radius : ℝ
  team : ℤ
  lives : ℤ
  attackDelay : ℝ
  collideIndex : ℕ
  distances : List (ℕ × ℝ)

noncomputable section CollisionModel

/-- `resolveCollision` (`src/unnamed/part_000`, lines 452–487): rewind-reflect
collision response.  Faithful to the source over exact reals; note the real
model gives `x / 0 = 0`, so the JS `Infinity`/`NaN` behaviour of the
`rewindTime` division is treated separately in the extended-rational model
below. -/
def resolveCollision (one two : PartR) : PartR × PartR :=
  let totRadius := one.radius + two.radius + COLLISION_EPSILON
  let centersVec := vsub one.pos two.pos
  let totDistance := len centersVec
  let totVel := vadd one.vel two.vel
  let totVelMag := len totVel
  let normal := normalize centersVec
  let rewindTime := |(totRadius - totDistance) / totVelMag|
  let newVelOne := vadd one.vel (setLength normal (-2 * dot one.vel normal))
  let newPosOne := (one.pos.1 + rewindTime * (newVelOne.1 - one.vel.1),
                    one.pos.2 + rewindTime * (newVelOne.2 - one.vel.2))
  let newVelTwo := vadd two.vel (setLength normal (-2 * dot two.vel normal))
  let newPosTwo := (two.pos.1 + rewindTime * (newVelTwo.1 - two.vel.1),
                    two.pos.2 + rewindTime * (newVelTwo.2 - two.vel.2))
  ({ one with pos := newPosOne, vel := newVelOne },
   { two with pos := newPosTwo, vel := newVelTwo })

/-- Body of the incremental all-pairs scan in `logicLoop`
(`src/script.js`, lines 345–364): record the pairwise distance in both
particles' `distances` lists, and when the overlap test passes run
`resolveCollision` and, for differing teams, decrement both `lives`. -/
def collideStep (one two : PartR) : PartR × PartR :=
  let totRadius := two.radius + one.radius
  let totDistance := distanceTo one.pos two.pos
  let two1 := { two with distances := two.distances ++ [(one.collideIndex, totDistance)] }
  let one1 := { one with distances := one.distances ++ [(two.collideIndex, totDistance)] }
  if totDistance < totRadius + COLLISION_EPSILON then
    let r := resolveCollision one1 two1
    if one.team ≠ two.team then
      ({ r.1 with lives := r.1.lives - 1 }, { r.2 with lives := r.2.lives - 1 })
    else r
  else
    (one1, two1)

end CollisionModel

/-- `resolveCollision` never touches `lives`, `team`, `radius` or
`attackDelay`. -/
theorem resolveCollision_preserves_nonkinematic (one two : PartR) :
    (resolveCollision one two).1.lives = one.lives
    ∧ (resolveCollision one two).2.lives = two.lives
    ∧ (resolveCollision one two).1.team = one.team
    ∧ (resolveCollision one two).2.team = two.team
    ∧ (resolveCollision one two).1.attackDelay = one.attackDelay
    ∧ (resolveCollision one two).2.attackDelay = two.attackDelay := by
  unfold resolveCollision
  exact ⟨rfl, rfl, rfl, rfl, rfl, rfl⟩

/-- C2: for a pair of collidable particles that satisfies the overlap
predicate (`totDistance < totRadius + COLLISION_EPSILON`) when the collision
pass checks it, both `lives` drop by exactly 1 when the teams differ, and
neither changes when the teams match. -/
theorem collideStep_lives (one two : PartR)
    (h : distanceTo one.pos two.pos < two.radius + one.radius + COLLISION_EPSILON) :
    (one.team ≠ two.team →
      (collideStep one two).1.lives = one.lives - 1
      ∧ (collideStep one two).2.lives = two.lives - 1)
    ∧ (one.team = two.team →
      (collideStep one two).1.lives = one.lives
      ∧ (collideStep one two).2.lives = two.lives) := by
  constructor
  · intro hteam
    simp only [collideStep, if_pos h, if_pos hteam]
    unfold resolveCollision
    exact ⟨rfl, rfl⟩
  · intro hteam
    simp only [collideStep, if_pos h, if_neg (by simp [hteam] : ¬one.team ≠ two.team)]
    unfold resolveCollision
    exact ⟨rfl, rfl⟩

/-- C2 witness: two overlapping particles of radius 2 at distance 1, on
different teams, each lose one life. -/
theorem collideStep_lives_witness :
    distanceTo ((0 : ℝ), (0 : ℝ)) ((1 : ℝ), (0 : ℝ)) < 2 + 2 + COLLISION_EPSILON
    ∧ ((1 : ℤ) ≠ (2 : ℤ) →
        (collideStep ⟨(0, 0), (0, 0), 2, 1, 10, 0, 0, []⟩
            ⟨(1, 0), (0, 0), 2, 2, 10, 1, 1, []⟩).1.lives = 10 - 1
        ∧ (collideStep ⟨(0, 0), (0, 0), 2, 1, 10, 0, 0, []⟩
            ⟨(1, 0), (0, 0), 2, 2, 10, 1, 1, []⟩).2.lives = 10 - 1) := by
  have hdist : distanceTo ((0 : ℝ), (0 : ℝ)) ((1 : ℝ), (0 : ℝ))
      < 2 + 2 + COLLISION_EPSILON := by
    have h1 : distanceTo ((0 : ℝ), (0 : ℝ)) ((1 : ℝ), (0 : ℝ)) = 1 := by
      unfold distanceTo len vsub
      norm_num
    rw [h1]
    unfold COLLISION_EPSILON
    norm_num
  refine ⟨hdist, fun hteam => ?_⟩
  have := collideStep_lives ⟨(0, 0), (0, 0), 2, 1, 10, 0, 0, []⟩
    ⟨(1, 0), (0, 0), 2, 2, 10, 1, 1, []⟩ hdist
  exact this.1 hteam

/-- `vsub` of distinct vectors is nonzero. -/
theorem vsub_ne_zero_of_ne {a b : ℝ × ℝ} (h : a ≠ b) : vsub a b ≠ (0, 0) := by
  intro hz
  apply h
  unfold vsub at hz
  simp only [Prod.mk.injEq] at hz
  have h1 : a.1 = b.1 := by linarith [hz.1]
  have h2 : a.2 = b.2 := by linarith [hz.2]
  exact Prod.ext h1 h2

/-- Adding the `setLength`-scaled unit normal is the textbook reflection. -/
theorem vadd_setLength_eq_reflection {n : ℝ × ℝ} (hn : len n = 1) (v : ℝ × ℝ) :
    vadd v (setLength n (-2 * dot v n)) = vsub v (vscale (2 * dot v n) n) := by
  rw [setLength_of_len_one hn]
  unfold vadd vsub vscale dot
  simp only [Prod.mk.injEq]
  constructor <;> ring

/-- Reflection about a unit normal preserves length. -/
theorem len_reflection {n : ℝ × ℝ} (hn : len n = 1) (v : ℝ × ℝ) :
    len (vsub v (vscale (2 * dot v n) n)) = len v := by
  apply len_eq_of_dot_self_eq
  have hnn : dot n n = 1 := dot_self_of_len_one hn
  unfold dot at hnn ⊢
  unfold vsub vscale
  simp only
  linear_combination (4 * (v.1 * n.1 + v.2 * n.2) ^ 2) * hnn

/-- C9: for particles with distinct centers (and nonzero combined velocity),
`resolveCollision` replaces each velocity by its pure reflection
`v' = v − 2(v·n)n` about the unit center-to-center normal, and therefore
preserves each velocity's Euclidean magnitude. -/
theorem resolveCollision_reflects (one two : PartR)
    (hpos : one.pos ≠ two.pos)
    (hvel : len (vadd one.vel two.vel) ≠ 0) :
    (resolveCollision one two).1.vel
      = vsub one.vel
          (vscale (2 * dot one.vel (normalize (vsub one.pos two.pos)))
            (normalize (vsub one.pos two.pos)))
    ∧ (resolveCollision one two).2.vel
      = vsub two.vel
          (vscale (2 * dot two.vel (normalize (vsub one.pos two.pos)))
            (normalize (vsub one.pos two.pos)))
    ∧ len (resolveCollision one two).1.vel = len one.vel
    ∧ len (resolveCollision one two).2.vel = len two.vel := by
  have hc : vsub one.pos two.pos ≠ (0, 0) := vsub_ne_zero_of_ne hpos
  have hn : len (normalize (vsub one.pos two.pos)) = 1 := len_normalize_of_ne_zero hc
  have e1 : (resolveCollision one two).1.vel
      = vadd one.vel
          (setLength (normalize (vsub one.pos two.pos))
            (-2 * dot one.vel (normalize (vsub one.pos two.pos)))) := rfl
  have e2 : (resolveCollision one two).2.vel
      = vadd two.vel
          (setLength (normalize (vsub one.pos two.pos))
            (-2 * dot two.vel (normalize (vsub one.pos two.pos)))) := rfl
  refine ⟨?_, ?_, ?_, ?_⟩
  · rw [e1, vadd_setLength_eq_reflection hn]
  · rw [e2, vadd_setLength_eq_reflection hn]
  · rw [e1, vadd_setLength_eq_reflection hn, len_reflection hn]
  · rw [e2, vadd_setLength_eq_reflection hn, len_reflection hn]

/-- C9 witness: concrete distinct-center particles with nonzero combined
velocity; both output speeds match the input speeds. -/
theorem resolveCollision_reflects_witness :
    ((0 : ℝ), (0 : ℝ)) ≠ ((1 : ℝ), (0 : ℝ))
    ∧ len (vadd ((0 : ℝ), (0 : ℝ)) ((0 : ℝ), (1 : ℝ))) ≠ 0
    ∧ len ((resolveCollision ⟨(0, 0), (0, 0), 2, 1, 10, 0, 0, []⟩
        ⟨(1, 0), (0, 1), 2, 2, 10, 1, 1, []⟩).1.vel) = len ((0 : ℝ), (0 : ℝ))
    ∧ len ((resolveCollision ⟨(0, 0), (0, 0), 2, 1, 10, 0, 0, []⟩
        ⟨(1, 0), (0, 1), 2, 2, 10, 1, 1, []⟩).2.vel) = len ((0 : ℝ), (1 : ℝ)) := by
  have hpos : (((0 : ℝ), (0 : ℝ)) : ℝ × ℝ) ≠ ((1 : ℝ), (0 : ℝ)) := by
    simp [Prod.ext_iff]
  have hvel : len (vadd ((0 : ℝ), (0 : ℝ)) ((0 : ℝ), (1 : ℝ))) ≠ 0 := by
    unfold len vadd
    norm_num
  have := resolveCollision_reflects ⟨(0, 0), (0, 0), 2, 1, 10, 0, 0, []⟩
    ⟨(1, 0), (0, 1), 2, 2, 10, 1, 1, []⟩ hpos hvel
  exact ⟨hpos, hvel, this.2.2.1, this.2.2.2⟩

/-! ## `AttackParticle.evalDeriv` (`src/unnamed/part_001`, lines 175–230)

The derivative evaluator reads the passed state slice plus the particle's
`target`/`connected` flags and its system's parameters, and *mutates*
`this.connected` in the reconnect branch; we model it as explicit state
passing, returning the updated particle alongside the derivative.

The source calls `this.sys.pos.angleWith(pos)` and `vel.angle()`; neither
method appears in the repository's sources (they extend `THREE.Vector2`).
Modelled from the spec: per §4.3 the thrust direction is "the previous
velocity's angle" perturbed by a bounded jitter and the correction is
"directed back toward home", so `angle` is `atan2` of the velocity and
`angleToCenter` is the angle of the vector from the particle to the system's
home position; `atan2` is modelled by `Complex.arg`.  The random jitter
`boundedRand(-randomization, randomization)` is supplied as an explicit
`rand` argument.
-/

/-- `PlayerSystem` parameters read by `AttackParticle.evalDeriv`
(`src/unnamed/part_000`, lines 288–310). -/
structure APSys where
  pos : ℝ × ℝ
  maxDist : ℝ
  randomization : ℝ
  correctionForce : ℝ
  correctionPower : ℝ
  damping : ℝ
  maxParticleVel : ℝ

/-- The `AttackParticle` fields `evalDeriv` and the constructor touch.  The
`target` is modelled by the referenced particle's position (only
`this.target.pos` is read by `evalDeriv`); `none` models `null`/`undefined`. -/
structure AP where
  target : Option (ℝ × ℝ)
  connected : Bool
  attacking : Bool
  team : ℤ
  sys : APSys

noncomputable section DerivModel

/-- JS `Math.atan2`, via `Complex.arg` (both give `0` at the origin). -/
def jsAtan2 (y x : ℝ) : ℝ := Complex.arg ⟨x, y⟩

/-- The damping acceleration (`src/unnamed/part_001`, lines 219–223):
`vel.setLength(-damping * |vel| * dist / (maxParticleVel * maxDist))`. -/
def dampingVec (sys : APSys) (vel : ℝ × ℝ) (dist : ℝ) : ℝ × ℝ :=
  let velMag := len vel
  setLength vel (-1 * sys.damping * velMag * dist / (sys.maxParticleVel * sys.maxDist))

/-- The final clamp (`src/unnamed/part_001`, lines 226–228): rescale to
`MAX_SPEED` when the magnitude exceeds it. -/
def capSpeed (a : ℝ × ℝ) : ℝ × ℝ :=
  if len a > MAX_SPEED then setLength a MAX_SPEED else a

/-- `AttackParticle.evalDeriv` (`src/unnamed/part_001`, lines 175–230).
The branch value is the pair (particle after the `connected` side effect,
(accel accumulated before damping, delayIncr)); then the damping is added
and the result clamped, and `[vel, accel, 1, delayIncr]` is returned. -/
def APevalDeriv (p : AP) (rand : ℝ) (st : St ℝ) : AP × Dv ℝ :=
  let pos := st.pos
  let vel := st.vel
  let attackDelay := st.delay
  let dist := distanceTo p.sys.pos pos
  let branch : AP × ((ℝ × ℝ) × ℝ) :=
    match p.target with
    | some tpos =>
        (p, (if attackDelay > ATTACK_DELAY then
              setLength (vsub pos tpos) (-1 * ATTACK_THRUSTERS)
            else (0, 0), 1))
    | none =>
        if p.connected then
          let angleToCenter := jsAtan2 (p.sys.pos.2 - pos.2) (p.sys.pos.1 - pos.1)
          let angle := jsAtan2 vel.2 vel.1 + rand
          let accel0 := setLength (Real.cos angle, Real.sin angle) THRUSTERS
          let accel :=
            if dist > p.sys.maxDist then
              vadd accel0
                (setLength (Real.cos angleToCenter, Real.sin angleToCenter)
                  ((dist / p.sys.maxDist) ^ p.sys.correctionPower * p.sys.correctionForce))
            else accel0
          (p, (accel, 0))
        else if dist < CONNECT_DIST then
          ({ p with connected := true }, ((0, 0), 0))
        else
          (p, ((0, 0), 0))
  (branch.1, ⟨vel, capSpeed (vadd branch.2.1 (dampingVec p.sys vel dist)), 1, branch.2.2⟩)

/-- The two derivative evaluations a single `trapezoidalStep` performs for one
particle (`src/unnamed/part_000`, lines 41 and 63; `PlayerSystem.evalDeriv`
delegates per key, lines 421–429), with the `connected` side effect threaded
from the first evaluation into the second, which runs at the Euler-projected
trial state. -/
def APtrapDerivs (p : AP) (r1 r2 : ℝ) (st : St ℝ) (t : ℝ) :
    AP × Dv ℝ × Dv ℝ :=
  let fst := APevalDeriv p r1 st
  let trial := trapTrialOne st fst.2 t
  let snd := APevalDeriv fst.1 r2 trial
  (snd.1, fst.2, snd.2)

/-- `AttackParticle` constructor state (`src/unnamed/part_001`, lines 17–23
and 139–148): age and attackDelay start at `0`. -/
def newAttackParticleState (pos vel : ℝ × ℝ) : St ℝ :=
  { pos := pos, vel := vel, age := 0, delay := 0 }

end DerivModel

/-- `vadd` with the zero accumulator (`accel` starts as `(0, 0)`). -/
theorem zero_vadd (v : ℝ × ℝ) : vadd (0, 0) v = v := by
  unfold vadd
  simp

/-- Branch lemma: with a target set and `attackDelay ≤ ATTACK_DELAY`, the
derivative is damping-only with `delayIncr = 1` and no side effect. -/
theorem APevalDeriv_target_le {p : AP} {tpos : ℝ × ℝ} (rand : ℝ) (st : St ℝ)
    (htgt : p.target = some tpos) (hdelay : st.delay ≤ ATTACK_DELAY) :
    APevalDeriv p rand st
      = (p, ⟨st.vel,
          capSpeed (dampingVec p.sys st.vel (distanceTo p.sys.pos st.pos)),
          1, 1⟩) := by
  unfold APevalDeriv
  rw [htgt]
  simp only [if_neg (not_lt.mpr hdelay), zero_vadd]

/-- Branch lemma: with a target set and `attackDelay > ATTACK_DELAY`, the
attack thrust toward the target is added before damping. -/
theorem APevalDeriv_target_gt {p : AP} {tpos : ℝ × ℝ} (rand : ℝ) (st : St ℝ)
    (htgt : p.target = some tpos) (hdelay : st.delay > ATTACK_DELAY) :
    APevalDeriv p rand st
      = (p, ⟨st.vel,
          capSpeed (vadd (setLength (vsub st.pos tpos) (-1 * ATTACK_THRUSTERS))
            (dampingVec p.sys st.vel (distanceTo p.sys.pos st.pos))),
          1, 1⟩) := by
  unfold APevalDeriv
  rw [htgt]
  simp only [if_pos hdelay]

/-- Branch lemma: no target, disconnected, within `CONNECT_DIST`: the
`connected` flag flips to `true` and the derivative is damping-only with
`delayIncr = 0`. -/
theorem APevalDeriv_reconnect_eq {p : AP} (rand : ℝ) (st : St ℝ)
    (htgt : p.target = none) (hconn : p.connected = false)
    (hdist : distanceTo p.sys.pos st.pos < CONNECT_DIST) :
    APevalDeriv p rand st
      = ({ p with connected := true },
         ⟨st.vel,
          capSpeed (dampingVec p.sys st.vel (distanceTo p.sys.pos st.pos)),
          1, 0⟩) := by
  unfold APevalDeriv
  rw [htgt]
  simp only [hconn, Bool.false_eq_true, if_false, if_pos hdist, zero_vadd]

/-- Branch lemma: no target, connected, within `maxDist` of home: thrust at a
jittered angle, no correction term, `delayIncr = 0`, no side effect. -/
theorem APevalDeriv_connected_eq {p : AP} (rand : ℝ) (st : St ℝ)
    (htgt : p.target = none) (hconn : p.connected = true)
    (hnear : ¬ distanceTo p.sys.pos st.pos > p.sys.maxDist) :
    APevalDeriv p rand st
      = (p, ⟨st.vel,
          capSpeed (vadd
            (setLength (Real.cos (jsAtan2 st.vel.2 st.vel.1 + rand),
                        Real.sin (jsAtan2 st.vel.2 st.vel.1 + rand)) THRUSTERS)
            (dampingVec p.sys st.vel (distanceTo p.sys.pos st.pos))),
          1, 0⟩) := by
  unfold APevalDeriv
  rw [htgt]
  simp only [hconn, if_true, if_neg hnear]

/-! ### Pointwise evaluation lemmas for the geometry primitives -/

theorem len_zero_vec : len ((0, 0) : ℝ × ℝ) = 0 := by
  unfold len
  norm_num

theorem setLength_zero_vec (l : ℝ) : setLength (0, 0) l = (0, 0) := by
  unfold setLength normalize divideScalar
  rw [len_zero_vec, if_pos rfl]
  unfold vscale
  norm_num

theorem dampingVec_zero_vel (sys : APSys) (dist : ℝ) :
    dampingVec sys (0, 0) dist = (0, 0) := by
  unfold dampingVec
  exact setLength_zero_vec _

theorem capSpeed_zero : capSpeed (0, 0) = (0, 0) := by
  unfold capSpeed
  rw [len_zero_vec, if_neg]
  unfold MAX_SPEED
  norm_num

theorem len_xaxis (x : ℝ) : len (x, 0) = |x| := by
  unfold len
  simpa using Real.sqrt_mul_self_eq_abs x

theorem setLength_xaxis_pos {x : ℝ} (hx : 0 < x) (l : ℝ) :
    setLength (x, 0) l = (l, 0) := by
  unfold setLength normalize divideScalar
  rw [len_xaxis, abs_of_pos hx, if_neg (ne_of_gt hx)]
  unfold vscale
  field_simp

theorem vscale_zero_vec (s : ℝ) : vscale s ((0, 0) : ℝ × ℝ) = (0, 0) := by
  unfold vscale
  norm_num

theorem vadd_zero_vec (v : ℝ × ℝ) : vadd v (0, 0) = v := by
  unfold vadd
  simp

/-- `setLength` of the vector from `b` to `a` with a negated length is the
positively scaled unit vector from `a` to `b`. -/
theorem setLength_vsub_neg (a b : ℝ × ℝ) (l : ℝ) :
    setLength (vsub a b) (-1 * l) = vscale l (normalize (vsub b a)) := by
  have hlen : len (vsub a b) = len (vsub b a) := by
    unfold len vsub
    congr 1
    ring
  by_cases h : len (vsub b a) = 0
  · have h' : len (vsub a b) = 0 := by rw [hlen, h]
    unfold setLength normalize divideScalar
    rw [h, h', if_pos rfl, if_pos rfl]
    unfold vscale
    norm_num
  · have h' : len (vsub a b) ≠ 0 := by rw [hlen]; exact h
    unfold setLength normalize divideScalar
    rw [if_neg h', if_neg h, hlen]
    unfold vscale vsub
    simp only [Prod.mk.injEq]
    constructor <;> ring

/-- C7: with a target set, `evalDeriv` applies no attack thrust while
`attackDelay` is at or below `ATTACK_DELAY` — the acceleration is the
(clamped) damping term alone — and the returned delay increment is `1`;
the attack thrust, of magnitude scale `ATTACK_THRUSTERS` along the unit
vector from self toward the target, is added exactly when `attackDelay`
exceeds the threshold. -/
theorem APevalDeriv_attack_gate (p : AP) (rand : ℝ) (st : St ℝ) (tpos : ℝ × ℝ)
    (htgt : p.target = some tpos) :
    (st.delay ≤ ATTACK_DELAY →
      APevalDeriv p rand st
        = (p, ⟨st.vel,
            capSpeed (dampingVec p.sys st.vel (distanceTo p.sys.pos st.pos)),
            1, 1⟩))
    ∧ (st.delay > ATTACK_DELAY →
      APevalDeriv p rand st
        = (p, ⟨st.vel,
            capSpeed (vadd
              (vscale ATTACK_THRUSTERS (normalize (vsub tpos st.pos)))
              (dampingVec p.sys st.vel (distanceTo p.sys.pos st.pos))),
            1, 1⟩)) := by
  constructor
  · intro h
    exact APevalDeriv_target_le rand st htgt h
  · intro h
    rw [APevalDeriv_target_gt rand st htgt h, setLength_vsub_neg]

/-- C7 witness: a particle targeting `(5, 0)` with `attackDelay = 0` gets a
damping-only acceleration and delay increment `1`. -/
theorem APevalDeriv_attack_gate_witness :
    (AP.mk (some (5, 0)) true false 1 ⟨(0, 0), 50, 30000, 2, 2, 4/5, 10⟩).target
        = some (5, 0)
    ∧ (St.mk (1, 2) (0, 0) 0 0 : St ℝ).delay ≤ ATTACK_DELAY
    ∧ APevalDeriv (AP.mk (some (5, 0)) true false 1 ⟨(0, 0), 50, 30000, 2, 2, 4/5, 10⟩)
        0 (St.mk (1, 2) (0, 0) 0 0)
      = (AP.mk (some (5, 0)) true false 1 ⟨(0, 0), 50, 30000, 2, 2, 4/5, 10⟩,
         ⟨(0, 0),
          capSpeed (dampingVec ⟨(0, 0), 50, 30000, 2, 2, 4/5, 10⟩ (0, 0)
            (distanceTo (0, 0) (1, 2))),
          1, 1⟩) := by
  have hd : ((St.mk (1, 2) (0, 0) 0 0 : St ℝ)).delay ≤ ATTACK_DELAY := by
    show (0 : ℝ) ≤ ATTACK_DELAY
    unfold ATTACK_DELAY
    norm_num
  exact ⟨rfl, hd,
    (APevalDeriv_attack_gate _ 0 _ (5, 0) rfl).1 hd⟩

/-! ### Concrete particle for the reconnect scenario -/

noncomputable section ReconnectScenario

def sysA : APSys := ⟨(0, 0), 50, 30000, 2, 2, 4/5, 10⟩

def pDisc : AP := AP.mk none false false 1 sysA

def stDisc : St ℝ := St.mk (30, 0) (0, 0) 0 0

end ReconnectScenario

theorem distanceTo_sysA_stDisc : distanceTo sysA.pos stDisc.pos = 30 := by
  show distanceTo ((0 : ℝ), (0 : ℝ)) ((30 : ℝ), (0 : ℝ)) = 30
  unfold distanceTo vsub
  norm_num [len_xaxis]

/-- C8 (amended): a derivative evaluation of a disconnected, targetless
particle within `CONNECT_DIST` of home flips `connected` to `true` and
returns a damping-only acceleration with zero delay increment — for *that*
evaluation.  (The second evaluation inside the same trapezoidal step already
sees `connected = true`; see the counterexample theorem.) -/
theorem APevalDeriv_reconnect_damping_only (p : AP) (rand : ℝ) (st : St ℝ)
    (htgt : p.target = none) (hconn : p.connected = false)
    (hdist : distanceTo p.sys.pos st.pos < CONNECT_DIST) :
    APevalDeriv p rand st
      = ({ p with connected := true },
         ⟨st.vel,
          capSpeed (dampingVec p.sys st.vel (distanceTo p.sys.pos st.pos)),
          1, 0⟩) :=
  APevalDeriv_reconnect_eq rand st htgt hconn hdist

/-- C8 witness: the concrete disconnected particle 30 units from home
reconnects with a damping-only derivative. -/
theorem APevalDeriv_reconnect_damping_only_witness :
    pDisc.target = none
    ∧ pDisc.connected = false
    ∧ distanceTo pDisc.sys.pos stDisc.pos < CONNECT_DIST
    ∧ APevalDeriv pDisc 0 stDisc
      = ({ pDisc with connected := true },
         ⟨stDisc.vel,
          capSpeed (dampingVec pDisc.sys stDisc.vel (distanceTo pDisc.sys.pos stDisc.pos)),
          1, 0⟩) := by
  have hdist : distanceTo pDisc.sys.pos stDisc.pos < CONNECT_DIST := by
    show distanceTo sysA.pos stDisc.pos < CONNECT_DIST
    rw [distanceTo_sysA_stDisc]
    unfold CONNECT_DIST
    norm_num
  exact ⟨rfl, rfl, hdist,
    APevalDeriv_reconnect_damping_only pDisc 0 stDisc rfl rfl hdist⟩

/-- C8 (counterexample to "only damping across both evaluations of the
trapezoidal step"): starting from the concrete disconnected particle, the
first evaluation is damping-only and flips `connected`, but the *second*
evaluation inside the same trapezoidal step takes the connected branch and
returns acceleration `(5, 0)` (thrust of magnitude `THRUSTERS = 8`, clamped
to `MAX_SPEED = 5`), which differs from the clamped damping term `(0, 0)` at
that evaluation's state. -/
theorem APtrapDerivs_second_eval_thrusts :
    (APtrapDerivs pDisc 0 0 stDisc TIME_STEP).2.2 = ⟨(0, 0), (5, 0), 1, 0⟩
    ∧ capSpeed (dampingVec pDisc.sys
        (trapTrialOne stDisc (APtrapDerivs pDisc 0 0 stDisc TIME_STEP).2.1 TIME_STEP).vel
        (distanceTo pDisc.sys.pos
          (trapTrialOne stDisc (APtrapDerivs pDisc 0 0 stDisc TIME_STEP).2.1 TIME_STEP).pos))
      = (0, 0)
    ∧ ((5, 0) : ℝ × ℝ) ≠ ((0, 0) : ℝ × ℝ) := by
  have hdist : distanceTo pDisc.sys.pos stDisc.pos < CONNECT_DIST := by
    show distanceTo sysA.pos stDisc.pos < CONNECT_DIST
    rw [distanceTo_sysA_stDisc]
    unfold CONNECT_DIST
    norm_num
  have h1 : APevalDeriv pDisc 0 stDisc
      = (AP.mk none true false 1 sysA, ⟨(0, 0), (0, 0), 1, 0⟩) := by
    rw [APevalDeriv_reconnect_eq 0 stDisc rfl rfl hdist]
    show (_, (⟨stDisc.vel, _, 1, 0⟩ : Dv ℝ)) = _
    rw [show stDisc.vel = ((0, 0) : ℝ × ℝ) from rfl,
      dampingVec_zero_vel, capSpeed_zero]
    rfl
  have h2 : trapTrialOne stDisc (⟨(0, 0), (0, 0), 1, 0⟩ : Dv ℝ) TIME_STEP
      = St.mk (30, 0) (0, 0) TIME_STEP 0 := by
    unfold trapTrialOne stDisc
    simp [vadd, vscale]
  have harg : jsAtan2 (0 : ℝ) 0 + 0 = 0 := by
    unfold jsAtan2
    rw [show (⟨(0 : ℝ), (0 : ℝ)⟩ : ℂ) = 0 from Complex.ext (by simp) (by simp)]
    rw [Complex.arg_zero, add_zero]
  have hnear : ¬ distanceTo (AP.mk none true false 1 sysA).sys.pos
      (St.mk ((30 : ℝ), (0 : ℝ)) (0, 0) TIME_STEP 0).pos
        > (AP.mk none true false 1 sysA).sys.maxDist := by
    show ¬ distanceTo sysA.pos stDisc.pos > (50 : ℝ)
    rw [distanceTo_sysA_stDisc]
    norm_num
  have h3 : APevalDeriv (AP.mk none true false 1 sysA) 0
      (St.mk (30, 0) (0, 0) TIME_STEP 0)
      = (AP.mk none true false 1 sysA, ⟨(0, 0), (5, 0), 1, 0⟩) := by
    rw [APevalDeriv_connected_eq 0 _ rfl rfl hnear]
    show (_, (⟨_, capSpeed (vadd (setLength (Real.cos (jsAtan2 (0 : ℝ) 0 + 0),
        Real.sin (jsAtan2 (0 : ℝ) 0 + 0)) THRUSTERS) _), 1, 0⟩ : Dv ℝ)) = _
    rw [harg, Real.cos_zero, Real.sin_zero,
      setLength_xaxis_pos one_pos THRUSTERS,
      show (St.mk ((30 : ℝ), (0 : ℝ)) (0, 0) TIME_STEP 0).vel = ((0, 0) : ℝ × ℝ) from rfl,
      dampingVec_zero_vel, vadd_zero_vec]
    have hcap : capSpeed ((THRUSTERS, 0) : ℝ × ℝ) = ((5, 0) : ℝ × ℝ) := by
      unfold capSpeed
      rw [len_xaxis]
      rw [if_pos (by unfold THRUSTERS MAX_SPEED; norm_num
        : |THRUSTERS| > MAX_SPEED)]
      rw [setLength_xaxis_pos (by unfold THRUSTERS; norm_num : (0 : ℝ) < THRUSTERS)]
      unfold MAX_SPEED
      rfl
    rw [hcap]
  have hAll : APtrapDerivs pDisc 0 0 stDisc TIME_STEP
      = (AP.mk none true false 1 sysA,
         (⟨(0, 0), (0, 0), 1, 0⟩ : Dv ℝ),
         (⟨(0, 0), (5, 0), 1, 0⟩ : Dv ℝ)) := by
    simp only [APtrapDerivs, h1, h2, h3]
  refine ⟨by rw [hAll], ?_, by simp [Prod.ext_iff]⟩
  rw [hAll]
  show capSpeed (dampingVec pDisc.sys
      (trapTrialOne stDisc (⟨(0, 0), (0, 0), 1, 0⟩ : Dv ℝ) TIME_STEP).vel
      (distanceTo pDisc.sys.pos
        (trapTrialOne stDisc (⟨(0, 0), (0, 0), 1, 0⟩ : Dv ℝ) TIME_STEP).pos)) = _
  rw [h2]
  rw [show (St.mk ((30 : ℝ), (0 : ℝ)) (0, 0) TIME_STEP 0).vel = ((0, 0) : ℝ × ℝ) from rfl,
    dampingVec_zero_vel, capSpeed_zero]

/-! ## `AttackParticle.doLogic` (`src/unnamed/part_001`, lines 241–292)

Target acquisition.  The enemy entries looked up in `window.game.collidables`
are modelled by `TgtRef` (the fields `doLogic` reads: `team`, `attacking`,
`isDead()`); a particle's `target` holds such a reference.  The in-place
`this.distances.sort((a, b) => a[1] - b[1])` is modelled by a stable
ascending `insertionSort` on the recorded distance.
-/

/-- An entry of `game.collidables` as read by `AttackParticle.doLogic`. -/
structure TgtRef where
  team : ℤ
  attacking : Bool
  lives : ℤ
deriving DecidableEq

/-- `AttackParticle.isDead` (`src/unnamed/part_001`, lines 300–302):
`this.lives <= 0`. -/
def TgtRef.isDead (t : TgtRef) : Bool := t.lives ≤ 0

/-- The `AttackParticle` fields `doLogic` reads and writes. -/
structure APL where
  team : ℤ
  pos : ℝ × ℝ
  sysPos : ℝ × ℝ
  target : Option TgtRef
  attacking : Bool
  connected : Bool
  attackDelay : ℝ
  distances : List (ℕ × ℝ)

noncomputable section DoLogicModel

/-- The retargeting scan (`src/unnamed/part_001`, lines 259–290): walk the
sorted distances; each `break` is modelled by returning, each `continue` by
recursing on the tail. -/
def retargetLoop (p : APL) (collidables : ℕ → TgtRef) :
    List (ℕ × ℝ) → APL
  | [] => p
  | (idx, dist) :: rest =>
      let enemy := collidables idx
      let homeDist := distanceTo p.sysPos p.pos
      if enemy.team ≠ p.team then
        if dist > ATTACK_DISTANCE ∧ homeDist < dist then
          { p with attacking := false, connected := true }
        else if p.attacking && enemy.attacking && !enemy.isDead then
          { p with target := some enemy, attacking := true, connected := false }
        else if dist < ATTACK_DISTANCE ∧ !enemy.isDead then
          { p with target := some enemy, attacking := true, connected := false }
        else
          retargetLoop p collidables rest
      else
        retargetLoop p collidables rest

/-- `AttackParticle.doLogic` (`src/unnamed/part_001`, lines 241–292): sort the
recorded distances, run the stale-target check — which, as written in the
source, clears the target when `!(this.target.isDead())` — then, if the
target is null or dead, scan for a new one. -/
def APdoLogic (p : APL) (collidables : ℕ → TgtRef) : APL :=
  let sorted := p.distances.insertionSort (fun a b => a.2 ≤ b.2)
  let p1 := { p with distances := sorted }
  let p2 :=
    match p1.target with
    | some t => if !t.isDead then { p1 with target := none } else p1
    | none => p1
  let needNew : Bool :=
    match p2.target with
    | none => true
    | some t => t.isDead
  if needNew then retargetLoop p2 collidables p2.distances else p2

end DoLogicModel

/-- C1: the stale-target check in `AttackParticle.doLogic` is inverted.  With
a *dead* target (lives = 0) and no candidates recorded, `doLogic` leaves the
dead target in place — violating the invariant that a non-null `target` is
alive after the tick — and with a *live* target (lives = 10) and no
candidates, `doLogic` clears it. -/
theorem APdoLogic_stale_check_inverted :
    ((APdoLogic (APL.mk 1 (0, 0) (0, 0) (some (TgtRef.mk 2 false 0)) true false 0 [])
        (fun _ => TgtRef.mk 2 false 0)).target = some (TgtRef.mk 2 false 0)
      ∧ (TgtRef.mk 2 false 0).isDead = true)
    ∧ ((APdoLogic (APL.mk 1 (0, 0) (0, 0) (some (TgtRef.mk 2 false 10)) true false 0 [])
        (fun _ => TgtRef.mk 2 false 10)).target = none
      ∧ (TgtRef.mk 2 false 10).isDead = false) := by
  refine ⟨⟨?_, rfl⟩, ⟨?_, rfl⟩⟩ <;>
    simp [APdoLogic, retargetLoop, TgtRef.isDead]

/-! ## `PlayerSystem.replenishParticles` (`src/unnamed/part_000`, lines 322–334)

Counting abstraction of the population bookkeeping: `count` stands for
`Object.keys(this.particles).length`; `addParticles(1)` is modelled as a
synchronous increment of the population (the source defers the actual
insertion through `window.setTimeout(makeOne, 0)`).  A logic tick may first
remove any number of dead particles (`logicLoop`'s cleanup only ever shrinks
the population) and then calls `replenishParticles` once
(`PlayerSystem.doLogic`, lines 346–353).
-/

structure PSRep where
  count : ℕ
  addCounter : ℕ
  addTime : ℕ
  maxParticles : ℕ
deriving DecidableEq

/-- `replenishParticles`: bump the counter until `addTime`; then, only when
the population is below the cap, add one particle and reset the counter. -/
def replenishParticles (s : PSRep) : PSRep :=
  if s.addCounter < s.addTime then
    { s with addCounter := s.addCounter + 1 }
  else if s.count < s.maxParticles then
    { s with count := s.count + 1, addCounter := 0 }
  else
    s

/-- One logic tick as it affects the population: remove `deaths` dead
particles, then replenish. -/
def psTick (deaths : ℕ) (s : PSRep) : PSRep :=
  replenishParticles { s with count := s.count - deaths }

/-- Run a sequence of logic ticks, each with its own death count. -/
def psRun (s : PSRep) : List ℕ → PSRep
  | [] => s
  | d :: ds => psRun (psTick d s) ds

theorem replenishParticles_le_cap (s : PSRep) (h : s.count ≤ s.maxParticles) :
    (replenishParticles s).count ≤ s.maxParticles
    ∧ (replenishParticles s).maxParticles = s.maxParticles := by
  unfold replenishParticles
  split_ifs with h1 h2
  · exact ⟨h, rfl⟩
  · exact ⟨h2, rfl⟩
  · exact ⟨h, rfl⟩

/-- C6: starting at or below the cap, the live particle count stays at or
below the cap after any number of logic ticks with replenishment running. -/
theorem psRun_le_cap (s : PSRep) (ds : List ℕ) (h : s.count ≤ s.maxParticles) :
    (psRun s ds).count ≤ s.maxParticles := by
  induction ds generalizing s with
  | nil => exact h
  | cons d ds ih =>
      show (psRun (psTick d s) ds).count ≤ s.maxParticles
      have hstep : (psTick d s).count ≤ (psTick d s).maxParticles
          ∧ (psTick d s).maxParticles = s.maxParticles := by
        unfold psTick
        have hd : s.count - d ≤ s.maxParticles := le_trans (Nat.sub_le _ _) h
        have h2 := replenishParticles_le_cap { s with count := s.count - d } hd
        exact ⟨by rw [h2.2]; exact h2.1, h2.2⟩
      have := ih (psTick d s) hstep.1
      rwa [hstep.2] at this

/-- C6 witness: cap 5, starting population 3, three ticks. -/
theorem psRun_le_cap_witness :
    (3 : ℕ) ≤ 5 ∧ (psRun (PSRep.mk 3 0 200 5) [0, 1, 2]).count ≤ 5 :=
  ⟨by decide, psRun_le_cap (PSRep.mk 3 0 200 5) [0, 1, 2] (by decide)⟩

/-! ## attackDelay lifecycle (C10) -/

/-- `evalDeriv`'s delay increment is `0` or `1` (hence nonnegative) and its
age increment is always `1`. -/
theorem APevalDeriv_incr (p : AP) (rand : ℝ) (st : St ℝ) :
    0 ≤ (APevalDeriv p rand st).2.d3 ∧ (APevalDeriv p rand st).2.d2 = 1 := by
  unfold APevalDeriv
  cases htgt : p.target with
  | some tpos =>
      simp only [htgt]
      exact ⟨by norm_num, trivial⟩
  | none =>
      simp only [htgt]
      split_ifs <;> exact ⟨le_refl 0, trivial⟩

/-- The retargeting scan never touches `attackDelay`. -/
theorem retargetLoop_attackDelay (p : APL) (c : ℕ → TgtRef)
    (l : List (ℕ × ℝ)) :
    (retargetLoop p c l).attackDelay = p.attackDelay := by
  induction l with
  | nil => rfl
  | cons hd tl ih =>
      obtain ⟨idx, dist⟩ := hd
      unfold retargetLoop
      dsimp only
      split_ifs <;> first | rfl | exact ih

/-- `doLogic` never touches `attackDelay`. -/
theorem APdoLogic_attackDelay (p : APL) (c : ℕ → TgtRef) :
    (APdoLogic p c).attackDelay = p.attackDelay := by
  obtain ⟨team, pos, sysPos, target, attacking, connected, delay, distances⟩ := p
  unfold APdoLogic
  cases target <;>
    simp only [] <;>
    split_ifs <;>
    simp [retargetLoop_attackDelay]

/-- C10: `attackDelay` starts at `0` at construction and no operation
decreases it: the derivative's delay increment is never negative (and the
age increment is `1`), both stepper bodies only add those increments,
`doLogic` and `resolveCollision` leave it untouched — so once it exceeds
`ATTACK_DELAY`, it stays above `ATTACK_DELAY` after every further step. -/
theorem attackDelay_never_decreases :
    (∀ pos vel : ℝ × ℝ, (newAttackParticleState pos vel).delay = 0)
    ∧ (∀ (p : AP) (rand : ℝ) (st : St ℝ),
        0 ≤ (APevalDeriv p rand st).2.d3 ∧ (APevalDeriv p rand st).2.d2 = 1)
    ∧ (∀ (st : St ℝ) (d : Dv ℝ) (t : ℝ), 0 ≤ d.d3 →
        st.delay ≤ (eulerStepOne st d t).delay)
    ∧ (∀ (st : St ℝ) (d : Dv ℝ) (t : ℝ), 0 ≤ d.d3 → 0 ≤ d.d2 →
        st.delay ≤ (trapSecondOne (trapTrialOne st d t) d t).delay)
    ∧ (∀ (p : APL) (c : ℕ → TgtRef), (APdoLogic p c).attackDelay = p.attackDelay)
    ∧ (∀ one two : PartR,
        (resolveCollision one two).1.attackDelay = one.attackDelay
        ∧ (resolveCollision one two).2.attackDelay = two.attackDelay)
    ∧ (∀ (st : St ℝ) (d : Dv ℝ) (t : ℝ), 0 ≤ d.d3 → 0 ≤ d.d2 →
        ATTACK_DELAY < st.delay →
        ATTACK_DELAY < (eulerStepOne st d t).delay
        ∧ ATTACK_DELAY < (trapSecondOne (trapTrialOne st d t) d t).delay) := by
  have heuler : ∀ (st : St ℝ) (d : Dv ℝ) (t : ℝ), 0 ≤ d.d3 →
      st.delay ≤ (eulerStepOne st d t).delay := by
    intro st d t h3
    show st.delay ≤ st.delay + d.d3
    linarith
  have htrap : ∀ (st : St ℝ) (d : Dv ℝ) (t : ℝ), 0 ≤ d.d3 → 0 ≤ d.d2 →
      st.delay ≤ (trapSecondOne (trapTrialOne st d t) d t).delay := by
    intro st d t h3 h2
    show st.delay ≤ st.delay + d.d3 + (d.d2 + d.d2) * (1/2)
    linarith
  refine ⟨fun pos vel => rfl, APevalDeriv_incr, heuler, htrap,
    APdoLogic_attackDelay,
    fun one two => ⟨rfl, rfl⟩,
    fun st d t h3 h2 hgate =>
      ⟨lt_of_lt_of_le hgate (heuler st d t h3),
       lt_of_lt_of_le hgate (htrap st d t h3 h2)⟩⟩

/-- C10 witness: a concrete Euler-step body keeps `attackDelay` at or above
its previous value, and keeps it over the threshold. -/
theorem attackDelay_never_decreases_witness :
    (0 : ℝ) ≤ (1 : ℝ)
    ∧ (St.mk ((0 : ℝ), 0) (0, 0) 0 21).delay
        ≤ (eulerStepOne (St.mk ((0 : ℝ), 0) (0, 0) 0 21) (Dv.mk (0, 0) (0, 0) 1 1) 2).delay
    ∧ ATTACK_DELAY < (St.mk ((0 : ℝ), 0) (0, 0) 0 21).delay := by
  have hgate : ATTACK_DELAY < (St.mk ((0 : ℝ), 0) (0, 0) 0 21).delay := by
    show ATTACK_DELAY < (21 : ℝ)
    unfold ATTACK_DELAY
    norm_num
  exact ⟨by norm_num,
    attackDelay_never_decreases.2.2.1 (St.mk ((0 : ℝ), 0) (0, 0) 0 21)
      (Dv.mk (0, 0) (0, 0) 1 1) 2 (by norm_num),
    hgate⟩

/-! ## JS float model of `resolveCollision` (C3)

JS numbers are IEEE-754 doubles; `x / 0` is `±Infinity` for `x ≠ 0`,
`Infinity * 0` is `NaN`, and `NaN` propagates.  `JVal` models a double as an
exact rational extended with `inf`, `neginf` and `nan` (no signed zero, no
rounding: every value reached on the verified path is a small decimal,
exactly representable, and every operation on the path is exact).
`Math.sqrt` is modelled by `Rat.sqrt`, which agrees with the
correctly-rounded double square root on perfect squares — the only square
roots taken on the verified path (`1` and `0`). -/

inductive JVal where
  | fin (q : ℚ)
  | inf
  | neginf
  | nan
deriving DecidableEq, Repr

def jneg : JVal → JVal
  | .fin q => .fin (-q)
  | .inf => .neginf
  | .neginf => .inf
  | .nan => .nan

def jadd : JVal → JVal → JVal
  | .nan, _ => .nan
  | _, .nan => .nan
  | .inf, .neginf => .nan
  | .neginf, .inf => .nan
  | .inf, _ => .inf
  | _, .inf => .inf
  | .neginf, _ => .neginf
  | _, .neginf => .neginf
  | .fin a, .fin b => .fin (a + b)

def jsub (x y : JVal) : JVal := jadd x (jneg y)

def jmul : JVal → JVal → JVal
  | .nan, _ => .nan
  | _, .nan => .nan
  | .inf, .inf => .inf
  | .inf, .neginf => .neginf
  | .neginf, .inf => .neginf
  | .neginf, .neginf => .inf
  | .inf, .fin b => if b = 0 then .nan else if 0 < b then .inf else .neginf
  | .fin a, .inf => if a = 0 then .nan else if 0 < a then .inf else .neginf
  | .neginf, .fin b => if b = 0 then .nan else if 0 < b then .neginf else .inf
  | .fin a, .neginf => if a = 0 then .nan else if 0 < a then .neginf else .inf
  | .fin a, .fin b => .fin (a * b)

def jdiv : JVal → JVal → JVal
  | .nan, _ => .nan
  | _, .nan => .nan
  | .inf, .inf => .nan
  | .inf, .neginf => .nan
  | .neginf, .inf => .nan
  | .neginf, .neginf => .nan
  | .inf, .fin b => if 0 ≤ b then .inf else .neginf
  | .neginf, .fin b => if 0 ≤ b then .neginf else .inf
  | .fin _, .inf => .fin 0
  | .fin _, .neginf => .fin 0
  | .fin a, .fin b =>
      if b = 0 then (if a = 0 then .nan else if 0 < a then .inf else .neginf)
      else .fin (a / b)

def jabs : JVal → JVal
  | .fin q => .fin |q|
  | .inf => .inf
  | .neginf => .inf
  | .nan => .nan

def jsqrt : JVal → JVal
  | .nan => .nan
  | .inf => .inf
  | .neginf => .nan
  | .fin q => if q < 0 then .nan else .fin (Rat.sqrt q)

/-! `THREE.Vector2` (r49) over `JVal`. -/

def jvadd (a b : JVal × JVal) : JVal × JVal := (jadd a.1 b.1, jadd a.2 b.2)

def jvsub (a b : JVal × JVal) : JVal × JVal := (jsub a.1 b.1, jsub a.2 b.2)

def jmulScalar (v : JVal × JVal) (s : JVal) : JVal × JVal :=
  (jmul v.1 s, jmul v.2 s)

def jlen (v : JVal × JVal) : JVal :=
  jsqrt (jadd (jmul v.1 v.1) (jmul v.2 v.2))

def jdot (a b : JVal × JVal) : JVal :=
  jadd (jmul a.1 b.1) (jmul a.2 b.2)

/-- r49 `divideScalar`: `if (s) { divide } else { set(0, 0) }`; `0` and `NaN`
are the falsy numbers. -/
def jdivideScalar (v : JVal × JVal) (s : JVal) : JVal × JVal :=
  if s = .fin 0 ∨ s = .nan then (.fin 0, .fin 0) else (jdiv v.1 s, jdiv v.2 s)

def jnormalize (v : JVal × JVal) : JVal × JVal := jdivideScalar v (jlen v)

def jsetLength (v : JVal × JVal) (l : JVal) : JVal × JVal :=
  jmulScalar (jnormalize v) l

structure JPart where
  pos : JVal × JVal
  vel : JVal × JVal
  radius : JVal
deriving DecidableEq

def jCOLLISION_EPSILON : JVal := .fin (1/10)

/-- `resolveCollision` (`src/unnamed/part_000`, lines 452–487) over the JS
float model, mirroring the source line by line. -/
def jresolveCollision (one two : JPart) : JPart × JPart :=
  let totRadius := jadd (jadd one.radius two.radius) jCOLLISION_EPSILON
  let centersVec := jvsub one.pos two.pos
  let totDistance := jlen centersVec
  let totVel := jvadd one.vel two.vel
  let totVelMag := jlen totVel
  let normal := jnormalize centersVec
  let rewindTime := jabs (jdiv (jsub totRadius totDistance) totVelMag)
  let newVelOne := jvadd one.vel (jsetLength normal (jmul (.fin (-2)) (jdot one.vel normal)))
  let newPosOne := (jadd one.pos.1 (jmul rewindTime (jsub newVelOne.1 one.vel.1)),
                    jadd one.pos.2 (jmul rewindTime (jsub newVelOne.2 one.vel.2)))
  let newVelTwo := jvadd two.vel (jsetLength normal (jmul (.fin (-2)) (jdot two.vel normal)))
  let newPosTwo := (jadd two.pos.1 (jmul rewindTime (jsub newVelTwo.1 two.vel.1)),
                    jadd two.pos.2 (jmul rewindTime (jsub newVelTwo.2 two.vel.2)))
  ({ one with pos := newPosOne, vel := newVelOne },
   { two with pos := newPosTwo, vel := newVelTwo })

/-- C3: `resolveCollision` has no special case for zero combined velocity.
Two overlapping particles at rest (radius 2, centers distance 1 apart; the
combined velocity magnitude evaluates to exactly `0`) get `NaN` in both
components of both output positions: `rewindTime` is `|3.1 / 0| = Infinity`
and `Infinity * 0` is `NaN`. -/
theorem jresolveCollision_zero_velocity_nan :
    jlen (jvadd (JVal.fin 0, JVal.fin 0) (JVal.fin 0, JVal.fin 0)) = JVal.fin 0
    ∧ jlen (jvsub (JVal.fin 0, JVal.fin 0) (JVal.fin 1, JVal.fin 0)) = JVal.fin 1
    ∧ (jresolveCollision
        (JPart.mk (JVal.fin 0, JVal.fin 0) (JVal.fin 0, JVal.fin 0) (JVal.fin 2))
        (JPart.mk (JVal.fin 1, JVal.fin 0) (JVal.fin 0, JVal.fin 0) (JVal.fin 2))).1.pos
      = (JVal.nan, JVal.nan)
    ∧ (jresolveCollision
        (JPart.mk (JVal.fin 0, JVal.fin 0) (JVal.fin 0, JVal.fin 0) (JVal.fin 2))
        (JPart.mk (JVal.fin 1, JVal.fin 0) (JVal.fin 0, JVal.fin 0) (JVal.fin 2))).2.pos
      = (JVal.nan, JVal.nan) := by
  have hs0 : Rat.sqrt 0 = 0 := by
    rw [show (0 : ℚ) = 0 * 0 by norm_num, Rat.sqrt_eq]
    norm_num
  have hs1 : Rat.sqrt 1 = 1 := by
    rw [show (1 : ℚ) = 1 * 1 by norm_num, Rat.sqrt_eq]
    norm_num
  have hvadd0 : jvadd (JVal.fin 0, JVal.fin 0) (JVal.fin 0, JVal.fin 0)
      = (JVal.fin 0, JVal.fin 0) := by
    norm_num [jvadd, jadd]
  have hlen0 : jlen (JVal.fin 0, JVal.fin 0) = JVal.fin 0 := by
    norm_num [jlen, jmul, jadd, jsqrt, hs0]
  have hcv : jvsub (JVal.fin 0, JVal.fin 0) (JVal.fin 1, JVal.fin 0)
      = (JVal.fin (-1), JVal.fin 0) := by
    norm_num [jvsub, jsub, jadd, jneg]
  have hlen1 : jlen (JVal.fin (-1), JVal.fin 0) = JVal.fin 1 := by
    norm_num [jlen, jmul, jadd, jsqrt, hs1]
  have hne : ¬(JVal.fin 1 = JVal.fin 0 ∨ JVal.fin 1 = JVal.nan) := by
    rintro (h | h)
    · rw [JVal.fin.injEq] at h
      norm_num at h
    · exact JVal.noConfusion h
  have hnormal : jnormalize (JVal.fin (-1), JVal.fin 0)
      = (JVal.fin (-1), JVal.fin 0) := by
    rw [jnormalize, hlen1, jdivideScalar, if_neg hne]
    norm_num [jdiv]
  have hdot : jdot (JVal.fin 0, JVal.fin 0) (JVal.fin (-1), JVal.fin 0)
      = JVal.fin 0 := by
    norm_num [jdot, jmul, jadd]
  have hm20 : jmul (JVal.fin (-2)) (JVal.fin 0) = JVal.fin 0 := by
    norm_num [jmul]
  have hsetl : jsetLength (JVal.fin (-1), JVal.fin 0) (JVal.fin 0)
      = (JVal.fin 0, JVal.fin 0) := by
    norm_num [jsetLength, jmulScalar, hnormal, jmul]
  have hrad : jadd (jadd (JVal.fin 2) (JVal.fin 2)) jCOLLISION_EPSILON
      = JVal.fin (41/10) := by
    norm_num [jadd, jCOLLISION_EPSILON]
  have hsubr : jsub (JVal.fin (41/10)) (JVal.fin 1) = JVal.fin (31/10) := by
    norm_num [jsub, jadd, jneg]
  have hdiv0 : jdiv (JVal.fin (31/10)) (JVal.fin 0) = JVal.inf := by
    norm_num [jdiv]
  have hsub0 : jsub (JVal.fin 0) (JVal.fin 0) = JVal.fin 0 := by
    norm_num [jsub, jadd, jneg]
  have hinf0 : jmul JVal.inf (JVal.fin 0) = JVal.nan := by
    norm_num [jmul]
  have hnan : jadd (JVal.fin 0) JVal.nan = JVal.nan := by
    norm_num [jadd]
  have hnan1 : jadd (JVal.fin 1) JVal.nan = JVal.nan := by
    norm_num [jadd]
  refine ⟨by rw [hvadd0, hlen0], by rw [hcv, hlen1], ?_, ?_⟩ <;>
  · simp only [jresolveCollision]
    simp only [hvadd0, hlen0, hcv, hlen1, hnormal, hdot, hm20, hsetl, hrad,
      hsubr, hdiv0, hsub0, hinf0, hnan, hnan1, jabs]

end Swarm
